import Mathlib

/-!
LectureSynth core pipeline, modelled from `app/models.py`, `app/core.py` and
`app/services/ai_engine.py`.

The development embeds, in order: the data model (`ProcessingStatus`,
`Flashcard`, `Lecture`), the JSON wire format of `metadata.json` (pydantic
`.json()` on write, `json.load` + `Lecture(**data)` on read), the two-tier
job store (`temp_storage` / `saved_storage` directories keyed by lecture id),
`ingest`, `save_lecture_permanently`, the Analyzer retry policy of
`AIEngine.analyze_slide`, and the concurrent executor `process_background`
with its per-card tasks gated by the `asyncio.Semaphore(3)`.
-/

namespace LectureSynth

/-- The `ProcessingStatus` enum (`app/models.py`): status domain shared by lectures
and flashcards, serialized as the strings given in the source. -/
inductive ProcessingStatus where
  | pending
  | processing
  | completed
  | failed
deriving DecidableEq, Repr

/-- The `Flashcard` model (`app/models.py`): the per-page unit of work. The `id` is a
uuid string produced by the environment. -/
structure Flashcard where
  id : String
  front : String
  back : String
  page_number : Nat
  status : ProcessingStatus
  error : Option String
deriving DecidableEq, Repr

/-- The `Lecture` model (`app/models.py`): the aggregate job record. `upload_date` is a
Python float of epoch milliseconds; modelled as a rational. -/
structure Lecture where
  id : String
  filename : String
  upload_date : ℚ
  total_slides : Nat
  processed_slides : Nat
  cards : List Flashcard
  status : ProcessingStatus
  is_saved : Bool
deriving DecidableEq, Repr

/-- JSON values: the wire format of `metadata.json`. -/
inductive Json where
  | str (s : String)
  | num (q : ℚ)
  | bool (b : Bool)
  | null
  | arr (xs : List Json)
  | obj (fields : List (String × Json))

/-- Field lookup in a JSON object (dict access in `Lecture(**data)`). -/
def Json.lookup (j : Json) (key : String) : Option Json :=
  match j with
  | .obj fields => fields.lookup key
  | _ => none

/-- Pydantic validation of a JSON value as a `str` field. -/
def Json.asStr : Json → Option String
  | .str s => some s
  | _ => none

/-- Pydantic validation of a JSON value as an `int` field. -/
def Json.asNat : Json → Option Nat
  | .num q => if 0 ≤ q.num ∧ q.den = 1 then some q.num.toNat else none
  | _ => none

/-- Pydantic validation of a JSON value as a `float` field. -/
def Json.asRat : Json → Option ℚ
  | .num q => some q
  | _ => none

/-- Pydantic validation of a JSON value as a `bool` field. -/
def Json.asBool : Json → Option Bool
  | .bool b => some b
  | _ => none

/-- Pydantic validation of a JSON value as a list field. -/
def Json.asArr : Json → Option (List Json)
  | .arr xs => some xs
  | _ => none

/-- A `ProcessingStatus(str, Enum)` value serializes as its string. -/
def ProcessingStatus.toStr : ProcessingStatus → String
  | .pending => "pending"
  | .processing => "processing"
  | .completed => "completed"
  | .failed => "failed"

/-- Pydantic validation of a status string back into the enum. -/
def ProcessingStatus.ofStr : String → Option ProcessingStatus
  | "pending" => some .pending
  | "processing" => some .processing
  | "completed" => some .completed
  | "failed" => some .failed
  | _ => none

/-- Serialization of a `Flashcard` by pydantic `.json()`. -/
def Flashcard.toJson (c : Flashcard) : Json :=
  .obj [("id", .str c.id), ("front", .str c.front), ("back", .str c.back),
        ("page_number", .num c.page_number), ("status", .str c.status.toStr),
        ("error", match c.error with | none => .null | some e => .str e)]

/-- Validation of a JSON object into a `Flashcard` (pydantic model parsing;
a missing or null `error` field defaults to `None`). -/
def Flashcard.fromJson (j : Json) : Option Flashcard := do
  let id ← (j.lookup "id").bind Json.asStr
  let front ← (j.lookup "front").bind Json.asStr
  let back ← (j.lookup "back").bind Json.asStr
  let page ← (j.lookup "page_number").bind Json.asNat
  let statusStr ← (j.lookup "status").bind Json.asStr
  let status ← ProcessingStatus.ofStr statusStr
  let error ← match j.lookup "error" with
    | none => some none
    | some .null => some none
    | some (.str e) => some (some e)
    | some _ => none
  pure { id := id, front := front, back := back, page_number := page,
         status := status, error := error }

/-- Serialization of a `Lecture` by pydantic `.json()` (`lecture.json()` in
`LectureSynth._save_metadata`). -/
def Lecture.toJson (l : Lecture) : Json :=
  .obj [("id", .str l.id), ("filename", .str l.filename),
        ("upload_date", .num l.upload_date),
        ("total_slides", .num l.total_slides),
        ("processed_slides", .num l.processed_slides),
        ("cards", .arr (l.cards.map Flashcard.toJson)),
        ("status", .str l.status.toStr), ("is_saved", .bool l.is_saved)]

/-- Pydantic validation of a JSON list into `List[Flashcard]`, item by item. -/
def cardsFromJson : List Json → Option (List Flashcard)
  | [] => some []
  | j :: rest => do
    let c ← Flashcard.fromJson j
    let cs ← cardsFromJson rest
    pure (c :: cs)

/-- Validation of a JSON object into a `Lecture` (`Lecture(**data)` in
`LectureSynth._load_metadata`). -/
def Lecture.fromJson (j : Json) : Option Lecture := do
  let id ← (j.lookup "id").bind Json.asStr
  let filename ← (j.lookup "filename").bind Json.asStr
  let upload_date ← (j.lookup "upload_date").bind Json.asRat
  let total ← (j.lookup "total_slides").bind Json.asNat
  let processed ← (j.lookup "processed_slides").bind Json.asNat
  let cardsJ ← (j.lookup "cards").bind Json.asArr
  let cards ← cardsFromJson cardsJ
  let statusStr ← (j.lookup "status").bind Json.asStr
  let status ← ProcessingStatus.ofStr statusStr
  let saved ← (j.lookup "is_saved").bind Json.asBool
  pure { id := id, filename := filename, upload_date := upload_date,
         total_slides := total, processed_slides := processed, cards := cards,
         status := status, is_saved := saved }

theorem ProcessingStatus.ofStr_toStr (s : ProcessingStatus) :
    ProcessingStatus.ofStr s.toStr = some s := by
  cases s <;> rfl

theorem flashcard_roundtrip (c : Flashcard) :
    Flashcard.fromJson c.toJson = some c := by
  obtain ⟨id, front, back, page, status, error⟩ := c
  cases status <;> cases error <;>
    simp [Flashcard.toJson, Flashcard.fromJson, Json.lookup, List.lookup,
      Json.asStr, Json.asNat, ProcessingStatus.toStr, ProcessingStatus.ofStr]

theorem cardsFromJson_map_toJson (cs : List Flashcard) :
    cardsFromJson (cs.map Flashcard.toJson) = some cs := by
  induction cs with
  | nil => rfl
  | cons c rest ih => simp [cardsFromJson, flashcard_roundtrip, ih]

theorem lecture_roundtrip (l : Lecture) :
    Lecture.fromJson l.toJson = some l := by
  obtain ⟨id, filename, upload_date, total, processed, cards, status, saved⟩ := l
  cases status <;>
    simp [Lecture.toJson, Lecture.fromJson, Json.lookup, List.lookup,
      Json.asStr, Json.asNat, Json.asRat, Json.asArr, Json.asBool,
      ProcessingStatus.toStr, ProcessingStatus.ofStr, cardsFromJson_map_toJson]

/-- One storage directory for a given lecture id (`temp_storage/<id>` or
`saved_storage/<id>`): the serialized `metadata.json` bytes, when present,
and whether `source.pdf` is present. -/
structure TierSlot where
  meta : Option Json
  pdf : Bool

/-- The two retention tiers of `core.py`: `TEMP_STORAGE_DIR` and
`SAVED_STORAGE_DIR`. -/
inductive Tier where
  | temp
  | saved
deriving DecidableEq, Repr

/-- The durable state held for one lecture id across both tiers. -/
structure StoreState where
  temp : TierSlot
  saved : TierSlot

/-- Whether `os.path.exists` holds of the lecture's directory: it exists when any of its
files does. -/
def TierSlot.dirExists (s : TierSlot) : Bool := s.meta.isSome || s.pdf

/-- The slot a tier designates. -/
def StoreState.slot (st : StoreState) : Tier → TierSlot
  | .temp => st.temp
  | .saved => st.saved

/-- Model of `LectureSynth._get_storage_path`: prefer the saved directory when it
exists, otherwise default to temp. -/
def _get_storage_path (st : StoreState) : Tier :=
  if st.saved.dirExists then .saved else .temp

/-- Model of `LectureSynth._load_metadata`: read `metadata.json` from the storage
path and validate it with `Lecture(**data)`; `None` when absent. -/
def _load_metadata (st : StoreState) : Option Lecture :=
  ((st.slot (_get_storage_path st)).meta).bind Lecture.fromJson

/-- Model of `LectureSynth.get_lecture`: delegates to `_load_metadata`. -/
def get_lecture (st : StoreState) : Option Lecture :=
  _load_metadata st

/-- Overwrite the `metadata.json` bytes of one tier's directory. -/
def StoreState.writeMeta (st : StoreState) (t : Tier) (j : Json) : StoreState :=
  match t with
  | .temp => { st with temp := { st.temp with meta := some j } }
  | .saved => { st with saved := { st.saved with meta := some j } }

/-- Model of `LectureSynth._save_metadata`: write `lecture.json()` as the directory's
`metadata.json`. -/
def _save_metadata (st : StoreState) (t : Tier) (l : Lecture) : StoreState :=
  st.writeMeta t l.toJson

/-- Model of `LectureSynth.ingest`, after the page count is known: build the initial
`Lecture` (one pending card per page, `page_number = i + 1` in page order),
create the temp directory, write `source.pdf` and `metadata.json` there, and
return the lecture. The page count reported by the capability, the fresh
uuids and the upload timestamp are environment inputs passed as parameters. -/
def ingest (st : StoreState) (filename : String) (ident : String)
    (upload_date : ℚ) (cardId : Nat → String) (page_count : Nat) :
    Lecture × StoreState :=
  let lecture : Lecture :=
    { id := ident, filename := filename, upload_date := upload_date,
      total_slides := page_count, processed_slides := 0,
      cards := (List.range page_count).map (fun i =>
        { id := cardId i, front := "", back := "", page_number := i + 1,
          status := .pending, error := none }),
      status := .pending, is_saved := false }
  let withPdf : StoreState := { st with temp := { st.temp with pdf := true } }
  (lecture, _save_metadata withPdf .temp lecture)

/-- Model of `LectureSynth.save_lecture_permanently`: load the lecture; `None` when
absent; return it unchanged when already saved; otherwise require the temp
directory to exist, move it wholesale into the saved tier (`shutil.move`),
set `is_saved` and rewrite `metadata.json` in the destination. The model
overwrites the saved slot on move; the theorems below only visit states in
which the saved directory is empty on that branch, matching a destination
that does not yet exist. -/
def save_lecture_permanently (st : StoreState) : Option Lecture × StoreState :=
  match get_lecture st with
  | none => (none, st)
  | some lecture =>
    if lecture.is_saved then (some lecture, st)
    else if st.temp.dirExists then
      let moved : StoreState := { temp := ⟨none, false⟩, saved := st.temp }
      let l' := { lecture with is_saved := true }
      (some l', _save_metadata moved .saved l')
    else (none, st)

/-- Writing `metadata.json` at the current storage path and reading it back
yields the same lecture: the storage-path choice is unchanged by the write
and `Lecture(**json.load(...))` inverts `lecture.json()`. -/
theorem get_lecture_save (st : StoreState) (l : Lecture) :
    get_lecture (_save_metadata st (_get_storage_path st) l) = some l := by
  unfold get_lecture _load_metadata _save_metadata StoreState.writeMeta
    _get_storage_path StoreState.slot
  cases h : st.saved.dirExists with
  | true =>
    simp [TierSlot.dirExists] at h ⊢
    rcases h with h | h <;>
      simp [h, lecture_roundtrip, Option.isSome]
  | false => simp [h, lecture_roundtrip]

/-- Well-formedness of the durable state for one lecture id, as the pipeline
itself maintains it: stored metadata parses, the saved tier only holds
records whose `is_saved` flag promotion has set, the temp tier only records
with the flag clear (ingest writes it as `False`), and a directory never
holds `source.pdf` without `metadata.json` (both are written together). -/
structure WF (st : StoreState) : Prop where
  saved_meta : ∀ j, st.saved.meta = some j →
    ∃ l, Lecture.fromJson j = some l ∧ l.is_saved = true
  temp_meta : ∀ j, st.temp.meta = some j →
    ∃ l, Lecture.fromJson j = some l ∧ l.is_saved = false
  saved_pdf : st.saved.pdf = true → st.saved.meta.isSome
  temp_pdf : st.temp.pdf = true → st.temp.meta.isSome

theorem dirExists_of_meta {s : TierSlot} {j : Json} (h : s.meta = some j) :
    s.dirExists = true := by
  simp [TierSlot.dirExists, h]

theorem not_dirExists (s : TierSlot) (hm : s.meta = none) (hp : s.pdf = false) :
    s.dirExists = false := by
  simp [TierSlot.dirExists, hm, hp]

/-- C4: with a well-formed store, promotion returns `None` (`NotFound`)
exactly when neither tier holds a record, and any successful promotion
returns the lecture with its durability flag set. -/
theorem promote_notFound_iff (st : StoreState) (h : WF st) :
    ((save_lecture_permanently st).1 = none ↔
      st.temp.meta = none ∧ st.saved.meta = none) ∧
    (∀ l, (save_lecture_permanently st).1 = some l → l.is_saved = true) := by
  cases hsm : st.saved.meta with
  | some j =>
    obtain ⟨l, hl, hsav⟩ := h.saved_meta j hsm
    have hget : get_lecture st = some l := by
      simp [get_lecture, _load_metadata, _get_storage_path,
        dirExists_of_meta hsm, StoreState.slot, hsm, hl]
    have hval : save_lecture_permanently st = (some l, st) := by
      unfold save_lecture_permanently
      rw [hget]
      simp [hsav]
    rw [hval]
    constructor
    · simp [hsm]
    · intro l2 hl2
      simp at hl2
      rw [← hl2]
      exact hsav
  | none =>
    have hpdfS : st.saved.pdf = false := by
      cases hp : st.saved.pdf with
      | false => rfl
      | true => have := h.saved_pdf hp; rw [hsm] at this; simp at this
    have hpath : _get_storage_path st = .temp := by
      simp [_get_storage_path, not_dirExists st.saved hsm hpdfS]
    cases htm : st.temp.meta with
    | some j =>
      obtain ⟨l, hl, hns⟩ := h.temp_meta j htm
      have hget : get_lecture st = some l := by
        simp [get_lecture, _load_metadata, hpath, StoreState.slot, htm, hl]
      have hval : (save_lecture_permanently st).1 =
          some { l with is_saved := true } := by
        unfold save_lecture_permanently
        rw [hget]
        simp [hns, dirExists_of_meta htm]
      rw [hval]
      constructor
      · simp [htm]
      · intro l2 hl2
        simp at hl2
        rw [← hl2]
    | none =>
      have hget : get_lecture st = none := by
        simp [get_lecture, _load_metadata, hpath, StoreState.slot, htm]
      have hval : save_lecture_permanently st = (none, st) := by
        unfold save_lecture_permanently
        rw [hget]
      rw [hval]
      simp [htm, hsm]

/-- Concrete already-promoted lecture for exercising the promotion theorems. -/
def c4_lecture : Lecture :=
  { id := "job-1", filename := "deck.pdf", upload_date := 1700000000000,
    total_slides := 1, processed_slides := 1,
    cards := [{ id := "card-1", front := "F", back := "B", page_number := 1,
                status := .completed, error := none }],
    status := .completed, is_saved := true }

/-- A store whose saved tier alone holds `c4_lecture`. -/
def c4_store : StoreState :=
  { temp := ⟨none, false⟩, saved := ⟨some c4_lecture.toJson, true⟩ }

theorem c4_store_wf : WF c4_store := by
  constructor
  · intro j hj
    cases hj
    exact ⟨c4_lecture, lecture_roundtrip c4_lecture, rfl⟩
  · intro j hj
    cases hj
  · intro _
    rfl
  · intro hp
    cases hp

/-- Witness for C4 at the permanent-tier-only store. -/
theorem promote_notFound_iff_witness :
    WF c4_store ∧
    (((save_lecture_permanently c4_store).1 = none ↔
        c4_store.temp.meta = none ∧ c4_store.saved.meta = none) ∧
      (∀ l, (save_lecture_permanently c4_store).1 = some l →
        l.is_saved = true)) :=
  ⟨c4_store_wf, promote_notFound_iff c4_store c4_store_wf⟩

/-- C5: promoting a lecture whose stored record already carries the
durability flag is a no-op: it returns that lecture and leaves every stored
byte of both tiers untouched. -/
theorem promote_idempotent (st : StoreState) (j : Json) (l : Lecture)
    (hj : st.saved.meta = some j) (hl : Lecture.fromJson j = some l)
    (hs : l.is_saved = true) :
    save_lecture_permanently st = (some l, st) := by
  have hget : get_lecture st = some l := by
    simp [get_lecture, _load_metadata, _get_storage_path,
      dirExists_of_meta hj, StoreState.slot, hj, hl]
  unfold save_lecture_permanently
  rw [hget]
  simp [hs]

/-- Witness for C5 at a concrete already-promoted store. -/
theorem promote_idempotent_witness :
    c4_store.saved.meta = some c4_lecture.toJson ∧
    Lecture.fromJson c4_lecture.toJson = some c4_lecture ∧
    c4_lecture.is_saved = true ∧
    save_lecture_permanently c4_store = (some c4_lecture, c4_store) :=
  ⟨rfl, lecture_roundtrip c4_lecture, rfl,
    promote_idempotent c4_store c4_lecture.toJson c4_lecture rfl
      (lecture_roundtrip c4_lecture) rfl⟩

/-- C6: the lecture built by `ingest` for a document whose page-count
capability reports `N` pages has `N` total slides, a zero progress counter,
overall pending status, and exactly `N` pending cards whose page numbers are
`1, 2, ..., N` in order. -/
theorem ingest_initial (st : StoreState) (fn idv : String) (ud : ℚ)
    (cid : Nat → String) (N : Nat) :
    (ingest st fn idv ud cid N).1.total_slides = N ∧
    (ingest st fn idv ud cid N).1.processed_slides = 0 ∧
    (ingest st fn idv ud cid N).1.status = .pending ∧
    (ingest st fn idv ud cid N).1.cards.length = N ∧
    (∀ c ∈ (ingest st fn idv ud cid N).1.cards, c.status = .pending) ∧
    (ingest st fn idv ud cid N).1.cards.map Flashcard.page_number =
      List.range' 1 N := by
  refine ⟨rfl, rfl, rfl, by simp [ingest], ?_, ?_⟩
  · intro c hc
    simp [ingest] at hc
    obtain ⟨i, -, rfl⟩ := hc
    rfl
  · simp [ingest, List.map_map, List.range'_eq_map_range]
    omega

/-- The parsed JSON dict returned by a successful `AIEngine.analyze_slide`
call: the schema requires `skip`, `front`, `back`, but the executor accesses
`front` and `back` with `dict.get` and a default, so each field is optional
here. -/
structure SlideDict where
  skip : Option Bool
  front : Option String
  back : Option String
deriving DecidableEq, Repr

/-- One attempt of the underlying model call inside `analyze_slide`: either
the parsed dict, or an exception whose classification records whether
`"429" in str(e)` and the message `str(e)`. -/
def AttemptOutcome : Type := Except (Bool × String) SlideDict

/-- The backoff of `analyze_slide`:
`delay = (2 ** retry_count) + (0.1 * retry_count)`. -/
def backoff (attempt : Nat) : ℚ := 2 ^ attempt + (1 / 10) * attempt

/-- The observable outcome of a full `analyze_slide` call: its final result,
how many attempts of the model call it made, and the sleeps it performed
before each retry, in order. -/
structure AnalyzeRun where
  result : Except (Bool × String) SlideDict
  attempts : Nat
  delays : List ℚ

/-- Model of the `AIEngine.analyze_slide` retry structure: attempt the call; on an
exception that contains `"429"` while `retry_count < 3`, sleep
`backoff retry_count` and recurse with `retry_count + 1`; otherwise re-raise.
The per-attempt behaviour of the external model is the oracle, indexed by
`retry_count`. -/
def analyze_slide (oracle : Nat → AttemptOutcome) (retry_count : Nat) :
    AnalyzeRun :=
  match oracle retry_count with
  | .ok r => ⟨.ok r, 1, []⟩
  | .error (is_rate_limit, msg) =>
    if h : retry_count < 3 ∧ is_rate_limit = true then
      let rest := analyze_slide oracle (retry_count + 1)
      ⟨rest.result, rest.attempts + 1, backoff retry_count :: rest.delays⟩
    else ⟨.error (is_rate_limit, msg), 1, []⟩
termination_by 3 - retry_count
decreasing_by omega

/-- The body of `process_single_card` from the Analyzer call onward: on a
returned dict, copy `front`/`back` with `dict.get` defaults, mark the card
completed and increment `lecture.processed_slides`; on an exception, mark it
failed with `str(e)` captured, leaving the counter alone. -/
def process_single_card (card : Flashcard) (res : Except String SlideDict)
    (processed : Nat) : Flashcard × Nat :=
  match res with
  | .ok r =>
    ({ card with
        front := r.front.getD ""
        back := r.back.getD ""
        status := .completed },
      processed + 1)
  | .error e => ({ card with status := .failed, error := some e }, processed)

theorem analyze_slide_retry (oracle : Nat → AttemptOutcome) (rc : Nat)
    (msg : String) (ho : oracle rc = .error (true, msg)) (h1 : rc < 3) :
    analyze_slide oracle rc =
      ⟨(analyze_slide oracle (rc + 1)).result,
        (analyze_slide oracle (rc + 1)).attempts + 1,
        backoff rc :: (analyze_slide oracle (rc + 1)).delays⟩ := by
  rw [analyze_slide.eq_def, ho]
  simp [h1]

theorem analyze_slide_stop (oracle : Nat → AttemptOutcome) (rc : Nat)
    (rl : Bool) (msg : String) (ho : oracle rc = .error (rl, msg))
    (h1 : ¬(rc < 3 ∧ rl = true)) :
    analyze_slide oracle rc = ⟨.error (rl, msg), 1, []⟩ := by
  rw [analyze_slide.eq_def, ho]
  simp only [dif_neg h1]

/-- C1: against an Analyzer that classifies every attempt as rate limited,
`analyze_slide` makes exactly 4 attempts (the initial one plus 3 retries),
sleeping `backoff 0`, `backoff 1`, `backoff 2` before the respective
retries, re-raises the final error, and the executor then settles the card
to failed with that error captured and the progress counter untouched. -/
theorem rate_limited_four_attempts (oracle : Nat → AttemptOutcome)
    (card : Flashcard) (p : Nat)
    (h : ∀ n, ∃ msg, oracle n = .error (true, msg)) :
    (analyze_slide oracle 0).attempts = 4 ∧
    (analyze_slide oracle 0).delays = [backoff 0, backoff 1, backoff 2] ∧
    ∃ msg, (analyze_slide oracle 0).result = .error (true, msg) ∧
      process_single_card card (.error msg) p =
        ({ card with status := .failed, error := some msg }, p) := by
  obtain ⟨m0, h0⟩ := h 0
  obtain ⟨m1, h1⟩ := h 1
  obtain ⟨m2, h2⟩ := h 2
  obtain ⟨m3, h3⟩ := h 3
  have e3 : analyze_slide oracle 3 = ⟨.error (true, m3), 1, []⟩ :=
    analyze_slide_stop oracle 3 true m3 h3 (by omega)
  have e2 := analyze_slide_retry oracle 2 m2 h2 (by omega)
  have e1 := analyze_slide_retry oracle 1 m1 h1 (by omega)
  have e0 := analyze_slide_retry oracle 0 m0 h0 (by omega)
  rw [e3] at e2
  rw [e2] at e1
  rw [e1] at e0
  rw [e0]
  exact ⟨rfl, rfl, m3, rfl, rfl⟩

/-- An Analyzer oracle that is throttled on every attempt. -/
def c1_oracle : Nat → AttemptOutcome :=
  fun _ => .error (true, "429 Resource Exhausted")

/-- A freshly ingested pending card. -/
def c1_card : Flashcard :=
  { id := "card-1", front := "", back := "", page_number := 1,
    status := .pending, error := none }

/-- Witness for C1 at the always-throttled oracle. -/
theorem rate_limited_four_attempts_witness :
    (∀ n, ∃ msg, c1_oracle n = .error (true, msg)) ∧
    ((analyze_slide c1_oracle 0).attempts = 4 ∧
      (analyze_slide c1_oracle 0).delays =
        [backoff 0, backoff 1, backoff 2] ∧
      ∃ msg, (analyze_slide c1_oracle 0).result = .error (true, msg) ∧
        process_single_card c1_card (.error msg) 0 =
          ({ c1_card with status := .failed, error := some msg }, 0)) :=
  ⟨fun _ => ⟨"429 Resource Exhausted", rfl⟩,
    rate_limited_four_attempts c1_oracle c1_card 0
      (fun _ => ⟨"429 Resource Exhausted", rfl⟩)⟩

/-- C10: whatever dict the Analyzer returns, including one whose `skip`
field is true, the executor marks the card completed with the dict's
`front`/`back` copied (empty string when absent) and increments the
progress counter; the `skip` field never changes the outcome. -/
theorem skip_marks_completed (card : Flashcard) (r : SlideDict) (p : Nat) :
    (process_single_card card (.ok r) p).1.status = .completed ∧
    (process_single_card card (.ok r) p).1.front = r.front.getD "" ∧
    (process_single_card card (.ok r) p).1.back = r.back.getD "" ∧
    (process_single_card card (.ok r) p).2 = p + 1 ∧
    (∀ b, process_single_card card (.ok { r with skip := b }) p =
      process_single_card card (.ok r) p) :=
  ⟨rfl, rfl, rfl, rfl, fun _ => rfl⟩

/-- The capacity of the `asyncio.Semaphore(3)` of `LectureSynth.__init__`. -/
def semaphoreCapacity : Nat := 3

/-- Execution phase of one `process_single_card` task. `pending`: not yet
holding a semaphore slot; `working`: slot acquired and card marked
processing, suspended in the Renderer/Analyzer awaits; `done`: the card
settled and the slot released. Acquiring the slot and writing the
processing status happen in one scheduler slice in the source (no await
between them), as do settling the card and releasing the slot. -/
inductive Phase where
  | pending
  | working
  | done
deriving DecidableEq, Repr

/-- One per-card task of `process_background`: the card being mutated, the
predetermined outcome of its Renderer + Analyzer calls (the exception
message raised, or the Analyzer's dict), and the task's phase. -/
structure TaskState where
  card : Flashcard
  outcome : Except String SlideDict
  phase : Phase

/-- In-memory state of one `process_background` call after its initial
persist: free semaphore slots, the per-card tasks, the lecture's
`processed_slides` counter, and the last snapshot written to
`metadata.json`. -/
structure ExecState where
  avail : Nat
  tasks : List TaskState
  processed : Nat
  persisted : Lecture

/-- Interleaving semantics of the card tasks of one `process_background`
call. `acquire`: a pending task takes a free slot and marks its card
processing. `finish`: a working task settles its card from its outcome,
updates the counter, and releases the slot. Neither step persists anything:
`process_single_card` relies on the final save alone. -/
inductive Step : ExecState → ExecState → Prop where
  | acquire (a : Nat) (pre post : List TaskState) (t : TaskState)
      (pr : Nat) (P : Lecture) (hph : t.phase = .pending) :
      Step ⟨a + 1, pre ++ t :: post, pr, P⟩
        ⟨a, pre ++ { t with
            card := { t.card with status := .processing },
            phase := .working } :: post, pr, P⟩
  | finish (a : Nat) (pre post : List TaskState) (t : TaskState)
      (pr : Nat) (P : Lecture) (hph : t.phase = .working) :
      Step ⟨a, pre ++ t :: post, pr, P⟩
        ⟨a + 1, pre ++ { t with
            card := (process_single_card t.card t.outcome pr).1,
            phase := .done } :: post,
          (process_single_card t.card t.outcome pr).2, P⟩

/-- The task list `[process_single_card(card) for card in lecture.cards]`,
with each card's eventual Renderer/Analyzer outcome attached. -/
def initTasks (cards : List Flashcard)
    (outcomes : List (Except String SlideDict)) : List TaskState :=
  List.zipWith (fun c o => ⟨c, o, .pending⟩) cards outcomes

/-- State of `process_background` just before `asyncio.gather`: the loaded lecture
was re-persisted with status processing, the semaphore has all its slots,
and every task is pending. -/
def initExec (L0 : Lecture)
    (outcomes : List (Except String SlideDict)) : ExecState :=
  ⟨semaphoreCapacity, initTasks L0.cards outcomes, L0.processed_slides,
    { L0 with status := .processing }⟩

/-- The states one `process_background` call can pass through between its
initial persist and its final one. -/
def Reachable (L0 : Lecture) (outcomes : List (Except String SlideDict))
    (s : ExecState) : Prop :=
  Relation.ReflTransGen Step (initExec L0 outcomes) s

/-- Tasks currently holding a slot. -/
def countWorking (ts : List TaskState) : Nat :=
  ts.countP (fun t => t.phase == Phase.working)

/-- Tasks whose card is in completed status. -/
def countCompletedTasks (ts : List TaskState) : Nat :=
  ts.countP (fun t => t.card.status == ProcessingStatus.completed)

/-- Cards in completed status. -/
def countCompletedCards (cs : List Flashcard) : Nat :=
  cs.countP (fun c => c.status == ProcessingStatus.completed)

/-- Per-task relation between phase and card status, for a job whose cards
start pending: before acquiring, the card is still pending; while working
it is marked processing; once done it is terminal. -/
def TaskInv (t : TaskState) : Prop :=
  match t.phase with
  | .pending => t.card.status = .pending
  | .working => t.card.status = .processing
  | .done => t.card.status = .completed ∨ t.card.status = .failed

theorem countP_middle (p : TaskState → Bool) (pre post : List TaskState)
    (t : TaskState) :
    (pre ++ t :: post).countP p =
      pre.countP p + (post.countP p + if p t then 1 else 0) := by
  simp [List.countP_append, List.countP_cons]

theorem countWorking_middle (pre post : List TaskState) (t : TaskState) :
    countWorking (pre ++ t :: post) =
      countWorking pre + (countWorking post +
        if t.phase == Phase.working then 1 else 0) :=
  countP_middle _ pre post t

theorem countCompleted_middle (pre post : List TaskState) (t : TaskState) :
    countCompletedTasks (pre ++ t :: post) =
      countCompletedTasks pre + (countCompletedTasks post +
        if t.card.status == ProcessingStatus.completed then 1 else 0) :=
  countP_middle _ pre post t

theorem mem_initTasks {cards : List Flashcard}
    {outcomes : List (Except String SlideDict)} {t : TaskState}
    (h : t ∈ initTasks cards outcomes) : t.card ∈ cards ∧ t.phase = .pending := by
  induction cards generalizing outcomes with
  | nil => simp [initTasks] at h
  | cons c rest ih =>
    cases outcomes with
    | nil => simp [initTasks] at h
    | cons o orest =>
      simp only [initTasks, List.zipWith_cons_cons, List.mem_cons] at h
      rcases h with rfl | h
      · exact ⟨by simp, rfl⟩
      · obtain ⟨h1, h2⟩ := ih h
        exact ⟨by simp [h1], h2⟩

/-- The executor invariant of one `process_background` call over a freshly
ingested lecture. -/
structure Inv (L0 : Lecture) (s : ExecState) : Prop where
  len : s.tasks.length = L0.cards.length
  sem : s.avail + countWorking s.tasks = semaphoreCapacity
  counter : s.processed = countCompletedTasks s.tasks
  taskInv : ∀ t ∈ s.tasks, TaskInv t
  persist : s.persisted = { L0 with status := .processing }

theorem inv_init (L0 : Lecture) (outcomes : List (Except String SlideDict))
    (hfresh : ∀ c ∈ L0.cards, c.status = .pending)
    (hp0 : L0.processed_slides = 0)
    (hlen : outcomes.length = L0.cards.length) :
    Inv L0 (initExec L0 outcomes) := by
  constructor
  · simp [initExec, initTasks, hlen]
  · have : countWorking (initTasks L0.cards outcomes) = 0 := by
      rw [countWorking, List.countP_eq_zero]
      intro t ht
      simp [(mem_initTasks ht).2]
    simp [initExec, this]
  · have : countCompletedTasks (initTasks L0.cards outcomes) = 0 := by
      rw [countCompletedTasks, List.countP_eq_zero]
      intro t ht
      simp [hfresh t.card (mem_initTasks ht).1]
    simp [initExec, this, hp0]
  · intro t ht
    simp only [initExec] at ht
    obtain ⟨h1, h2⟩ := mem_initTasks ht
    simp [TaskInv, h2, hfresh t.card h1]
  · rfl

theorem inv_step {L0 : Lecture} {s s' : ExecState} (hs : Inv L0 s)
    (hstep : Step s s') : Inv L0 s' := by
  cases hstep with
  | acquire a pre post t pr P hph =>
    obtain ⟨hlen, hsem, hcnt, htsk, hper⟩ := hs
    dsimp only at hlen hsem hcnt htsk hper
    have hstat : t.card.status = .pending := by
      have := htsk t (by simp)
      rw [TaskInv, hph] at this
      exact this
    constructor
    · dsimp only
      simpa using hlen
    · dsimp only
      rw [countWorking_middle] at hsem ⊢
      dsimp only
      rw [hph] at hsem
      simp at hsem ⊢
      omega
    · dsimp only
      rw [countCompleted_middle] at hcnt ⊢
      dsimp only
      rw [hstat] at hcnt
      simp at hcnt ⊢
      omega
    · dsimp only
      intro t2 ht2
      rcases List.mem_append.1 ht2 with h | h
      · exact htsk t2 (by simp [h])
      · rcases List.mem_cons.1 h with rfl | h
        · simp [TaskInv]
        · exact htsk t2 (by simp [h])
    · exact hper
  | finish a pre post t pr P hph =>
    obtain ⟨hlen, hsem, hcnt, htsk, hper⟩ := hs
    dsimp only at hlen hsem hcnt htsk hper
    have hstat : t.card.status = .processing := by
      have := htsk t (by simp)
      rw [TaskInv, hph] at this
      exact this
    constructor
    · dsimp only
      simpa using hlen
    · dsimp only
      rw [countWorking_middle] at hsem ⊢
      dsimp only
      rw [hph] at hsem
      simp at hsem ⊢
      omega
    · dsimp only
      rw [countCompleted_middle] at hcnt ⊢
      dsimp only
      rw [hstat] at hcnt
      simp at hcnt
      cases ho : t.outcome with
      | ok r =>
        simp [process_single_card, ho]
        omega
      | error e =>
        simp [process_single_card, ho]
        omega
    · dsimp only
      intro t2 ht2
      rcases List.mem_append.1 ht2 with h | h
      · exact htsk t2 (by simp [h])
      · rcases List.mem_cons.1 h with rfl | h
        · cases ho : t.outcome with
          | ok r => simp [TaskInv, process_single_card, ho]
          | error e => simp [TaskInv, process_single_card, ho]
        · exact htsk t2 (by simp [h])
    · exact hper

theorem inv_reachable (L0 : Lecture) (outcomes : List (Except String SlideDict))
    (hfresh : ∀ c ∈ L0.cards, c.status = .pending)
    (hp0 : L0.processed_slides = 0)
    (hlen : outcomes.length = L0.cards.length)
    {s : ExecState} (hr : Reachable L0 outcomes s) : Inv L0 s := by
  induction hr with
  | refl => exact inv_init L0 outcomes hfresh hp0 hlen
  | tail _ hstep ih => exact inv_step ih hstep

/-- All card tasks have settled: what `asyncio.gather` awaits before the
final status change and save. -/
def AllDone (s : ExecState) : Prop := ∀ t ∈ s.tasks, t.phase = .done

/-- The lecture `process_background` persists once `asyncio.gather`
returns: the mutated cards and counter, with overall status completed. -/
def finalizeLecture (L0 : Lecture) (s : ExecState) : Lecture :=
  { L0 with
      cards := s.tasks.map TaskState.card
      processed_slides := s.processed
      status := .completed }

/-- C7: at every reachable point while processing a freshly ingested job,
the progress counter stays between 0 and the total unit count; and once all
tasks have settled, the completed lecture's counter equals the number of
cards in completed status — failed cards never increment it. -/
theorem counter_bounds (L0 : Lecture)
    (outcomes : List (Except String SlideDict)) (s : ExecState)
    (hfresh : ∀ c ∈ L0.cards, c.status = .pending)
    (hp0 : L0.processed_slides = 0)
    (hlen : outcomes.length = L0.cards.length)
    (htot : L0.cards.length = L0.total_slides)
    (hr : Reachable L0 outcomes s) :
    0 ≤ s.processed ∧ s.processed ≤ L0.total_slides ∧
    (AllDone s →
      (finalizeLecture L0 s).status = .completed ∧
      (finalizeLecture L0 s).processed_slides =
        countCompletedCards (finalizeLecture L0 s).cards) := by
  obtain ⟨hl, hsem, hcnt, htsk, hper⟩ :=
    inv_reachable L0 outcomes hfresh hp0 hlen hr
  refine ⟨Nat.zero_le _, ?_, ?_⟩
  · calc s.processed = countCompletedTasks s.tasks := hcnt
      _ ≤ s.tasks.length := List.countP_le_length _
      _ = L0.total_slides := by rw [hl, htot]
  · intro _
    refine ⟨rfl, ?_⟩
    show s.processed = countCompletedCards (s.tasks.map TaskState.card)
    rw [hcnt, countCompletedCards, List.countP_map]
    rfl

/-- Concrete one-page pending job exercising the counter invariant. -/
def c7_lecture : Lecture :=
  { id := "job-7", filename := "deck.pdf", upload_date := 0,
    total_slides := 1, processed_slides := 0,
    cards := [{ id := "card-1", front := "", back := "", page_number := 1,
                status := .pending, error := none }],
    status := .pending, is_saved := false }

def c7_outcomes : List (Except String SlideDict) :=
  [.ok { skip := some false, front := some "F", back := some "B" }]

/-- Witness for C7 at the start state of the concrete job. -/
theorem counter_bounds_witness :
    (∀ c ∈ c7_lecture.cards, c.status = .pending) ∧
    c7_lecture.processed_slides = 0 ∧
    c7_outcomes.length = c7_lecture.cards.length ∧
    c7_lecture.cards.length = c7_lecture.total_slides ∧
    Reachable c7_lecture c7_outcomes (initExec c7_lecture c7_outcomes) ∧
    (0 ≤ (initExec c7_lecture c7_outcomes).processed ∧
      (initExec c7_lecture c7_outcomes).processed ≤ c7_lecture.total_slides ∧
      (AllDone (initExec c7_lecture c7_outcomes) →
        (finalizeLecture c7_lecture (initExec c7_lecture c7_outcomes)).status =
          .completed ∧
        (finalizeLecture c7_lecture
            (initExec c7_lecture c7_outcomes)).processed_slides =
          countCompletedCards (finalizeLecture c7_lecture
            (initExec c7_lecture c7_outcomes)).cards)) :=
  ⟨by decide, rfl, rfl, rfl, Relation.ReflTransGen.refl,
    counter_bounds c7_lecture c7_outcomes _ (by decide) rfl rfl rfl
      Relation.ReflTransGen.refl⟩

theorem persisted_const {s s' : ExecState} (h : Step s s') :
    s'.persisted = s.persisted := by
  cases h <;> rfl

/-- C3 amended: polling mid-processing returns the last persisted snapshot,
and until the final save that snapshot is the one written at the start of
processing — the loaded lecture with overall status processing — whatever
cards have settled in memory since. -/
theorem polling_returns_start_snapshot (L0 : Lecture)
    (outcomes : List (Except String SlideDict)) (s : ExecState)
    (hr : Reachable L0 outcomes s) (st : StoreState) :
    s.persisted = { L0 with status := .processing } ∧
    get_lecture (_save_metadata st (_get_storage_path st) s.persisted) =
      some s.persisted := by
  have hp : s.persisted = { L0 with status := .processing } := by
    induction hr with
    | refl => rfl
    | tail _ hstep ih => rw [persisted_const hstep]; exact ih
  exact ⟨hp, get_lecture_save st s.persisted⟩

/-- Concrete one-page job for the C3 scenario. -/
def c3_card : Flashcard :=
  { id := "card-1", front := "", back := "", page_number := 1,
    status := .pending, error := none }

def c3_lecture : Lecture :=
  { id := "job-3", filename := "deck.pdf", upload_date := 0,
    total_slides := 1, processed_slides := 0, cards := [c3_card],
    status := .pending, is_saved := false }

def c3_dict : SlideDict :=
  { skip := some false, front := some "F", back := some "B" }

def c3_outcomes : List (Except String SlideDict) := [.ok c3_dict]

/-- The single card as marked at acquire time. -/
def c3_cardProcessing : Flashcard :=
  { id := "card-1", front := "", back := "", page_number := 1,
    status := .processing, error := none }

/-- The single card as settled by its Analyzer dict. -/
def c3_cardDone : Flashcard :=
  { id := "card-1", front := "F", back := "B", page_number := 1,
    status := .completed, error := none }

/-- The in-memory state after the single card settled, before the final
save: counter 1, card completed, persisted snapshot untouched. -/
def c3_mid : ExecState :=
  ⟨semaphoreCapacity, [⟨c3_cardDone, .ok c3_dict, .done⟩], 1,
    { c3_lecture with status := .processing }⟩

/-- The durable state at the start of processing: ingest wrote `source.pdf`,
and `process_background` saved the processing-status snapshot. -/
def c3_store0 : StoreState := { temp := ⟨none, true⟩, saved := ⟨none, false⟩ }

def c3_midStore : StoreState :=
  _save_metadata c3_store0 (_get_storage_path c3_store0)
    { c3_lecture with status := .processing }

theorem c3_mid_reachable : Reachable c3_lecture c3_outcomes c3_mid := by
  have h1 : Step (initExec c3_lecture c3_outcomes)
      ⟨2, [⟨c3_cardProcessing, .ok c3_dict, .working⟩], 0,
        { c3_lecture with status := .processing }⟩ :=
    Step.acquire 2 [] [] ⟨c3_card, .ok c3_dict, .pending⟩ 0
      { c3_lecture with status := .processing } rfl
  have h2 : Step
      ⟨2, [⟨c3_cardProcessing, .ok c3_dict, .working⟩], 0,
        { c3_lecture with status := .processing }⟩ c3_mid :=
    Step.finish 2 [] [] ⟨c3_cardProcessing, .ok c3_dict, .working⟩ 0
      { c3_lecture with status := .processing } rfl
  exact Relation.ReflTransGen.head h1 (Relation.ReflTransGen.single h2)

/-- C3 as stated is refuted: at the reachable mid-processing state `c3_mid`
the only WorkItem has settled completed and the in-memory counter is 1, yet
polling returns the persisted snapshot, which still shows a zero
completed-unit counter and a pending WorkItem — settled WorkItems are not
reflected before the final save. -/
theorem polling_no_midrun_progress :
    Reachable c3_lecture c3_outcomes c3_mid ∧
    c3_mid.tasks.map (fun t => t.card.status) = [ProcessingStatus.completed] ∧
    c3_mid.processed = 1 ∧
    get_lecture c3_midStore = some c3_mid.persisted ∧
    c3_mid.persisted.processed_slides = 0 ∧
    c3_mid.persisted.cards.map Flashcard.status = [ProcessingStatus.pending] := by
  refine ⟨c3_mid_reachable, rfl, rfl, ?_, rfl, rfl⟩
  exact get_lecture_save c3_store0 _

/-- Witness for the amended C3 at the processing-start state. -/
theorem polling_returns_start_snapshot_witness :
    Reachable c3_lecture c3_outcomes (initExec c3_lecture c3_outcomes) ∧
    ((initExec c3_lecture c3_outcomes).persisted =
        { c3_lecture with status := .processing } ∧
      get_lecture (_save_metadata c3_store0 (_get_storage_path c3_store0)
          (initExec c3_lecture c3_outcomes).persisted) =
        some (initExec c3_lecture c3_outcomes).persisted) :=
  ⟨Relation.ReflTransGen.refl,
    polling_returns_start_snapshot c3_lecture c3_outcomes _
      Relation.ReflTransGen.refl c3_store0⟩

/-- Result of the part of `process_background` that runs before any card
task. -/
inductive Dispatch where
  | noJob
  | failedMissingPdf (persisted : Lecture)
  | run (lecture : Lecture)

/-- The branch structure of `process_background` before the card tasks:
return silently when the lecture cannot be loaded; when `source.pdf` is
missing from the storage path, set the job failed and persist immediately
without touching any card; otherwise persist the processing status and
launch the per-card tasks. -/
def process_background_dispatch (st : StoreState) : Dispatch :=
  match get_lecture st with
  | none => .noJob
  | some lecture =>
    if (st.slot (_get_storage_path st)).pdf then .run lecture
    else .failedMissingPdf { lecture with status := .failed }

/-- Serial schedule: any block of pending tasks can be driven to settled,
one acquire-finish pair at a time, never dropping the free-slot count. -/
theorem run_to_done (a : Nat) (post : List TaskState) :
    ∀ (pre : List TaskState) (pr : Nat) (P : Lecture),
      (∀ t ∈ post, t.phase = .pending) →
      ∃ tasks2 pr2,
        Relation.ReflTransGen Step ⟨a + 1, pre ++ post, pr, P⟩
          ⟨a + 1, pre ++ tasks2, pr2, P⟩ ∧
        ∀ t ∈ tasks2, t.phase = .done := by
  induction post with
  | nil =>
    intro pre pr P _
    exact ⟨[], pr, Relation.ReflTransGen.refl, by simp⟩
  | cons t rest ih =>
    intro pre pr P hpost
    have s1 : Step ⟨a + 1, pre ++ t :: rest, pr, P⟩
        ⟨a, pre ++ { t with
            card := { t.card with status := .processing },
            phase := .working } :: rest, pr, P⟩ :=
      Step.acquire a pre rest t pr P (hpost t (by simp))
    have s2 : Step ⟨a, pre ++ { t with
          card := { t.card with status := .processing },
          phase := .working } :: rest, pr, P⟩
        ⟨a + 1, pre ++ { t with
            card := (process_single_card
              { t.card with status := .processing } t.outcome pr).1,
            phase := .done } :: rest,
          (process_single_card
            { t.card with status := .processing } t.outcome pr).2, P⟩ :=
      Step.finish a pre rest { t with
          card := { t.card with status := .processing },
          phase := .working }
        pr P rfl
    obtain ⟨tasks3, pr3, hchain, hdone⟩ :=
      ih (pre ++ [{ t with
          card := (process_single_card
            { t.card with status := .processing } t.outcome pr).1,
          phase := .done }])
        (process_single_card { t.card with status := .processing }
          t.outcome pr).2 P
        (fun t2 ht2 => hpost t2 (by simp [ht2]))
    rw [List.append_assoc] at hchain
    refine ⟨{ t with
        card := (process_single_card
          { t.card with status := .processing } t.outcome pr).1,
        phase := .done } :: tasks3, pr3, ?_, ?_⟩
    · exact Relation.ReflTransGen.head s1
        (Relation.ReflTransGen.head s2 (by simpa using hchain))
    · intro t2 ht2
      rcases List.mem_cons.1 ht2 with rfl | h
      · rfl
      · exact hdone t2 h

/-- C2: when the job record loads and its source document is present at the
start of processing, every interleaving of the card tasks can run to
completion, and whenever all tasks have settled — however many failed —
every card is terminal and the lecture built for the final save has overall
status completed and is what polling returns afterwards. When the source
document is missing at the start, the dispatch marks the job failed with
its cards untouched, and that failed snapshot is persisted and returned by
polling, no card having been attempted. -/
theorem job_completes (st : StoreState) (lecture : Lecture)
    (outcomes : List (Except String SlideDict))
    (hget : get_lecture st = some lecture)
    (hfresh : ∀ c ∈ lecture.cards, c.status = .pending)
    (hp0 : lecture.processed_slides = 0)
    (hlen : outcomes.length = lecture.cards.length) :
    ((st.slot (_get_storage_path st)).pdf = true →
      process_background_dispatch st = .run lecture ∧
      (∃ s, Reachable lecture outcomes s ∧ AllDone s) ∧
      (∀ s, Reachable lecture outcomes s → AllDone s →
        (∀ t ∈ s.tasks, t.card.status = .completed ∨ t.card.status = .failed) ∧
        (finalizeLecture lecture s).status = .completed ∧
        get_lecture (_save_metadata st (_get_storage_path st)
          (finalizeLecture lecture s)) = some (finalizeLecture lecture s))) ∧
    ((st.slot (_get_storage_path st)).pdf = false →
      process_background_dispatch st =
        .failedMissingPdf { lecture with status := .failed } ∧
      { lecture with status := .failed }.cards = lecture.cards ∧
      get_lecture (_save_metadata st (_get_storage_path st)
        { lecture with status := .failed }) =
        some { lecture with status := .failed }) := by
  constructor
  · intro hpdf
    refine ⟨?_, ?_, ?_⟩
    · unfold process_background_dispatch
      rw [hget, hpdf]
      simp
    · have hpend : ∀ t ∈ initTasks lecture.cards outcomes, t.phase = .pending :=
        fun t ht => (mem_initTasks ht).2
      obtain ⟨tasks2, pr2, hchain, hdone⟩ :=
        run_to_done 2 (initTasks lecture.cards outcomes) []
          lecture.processed_slides { lecture with status := .processing } hpend
      refine ⟨⟨2 + 1, [] ++ tasks2, pr2,
        { lecture with status := .processing }⟩, hchain, ?_⟩
      intro t ht
      exact hdone t (by simpa using ht)
    · intro s hr hdone
      have inv := inv_reachable lecture outcomes hfresh hp0 hlen hr
      refine ⟨?_, rfl, get_lecture_save st _⟩
      intro t ht
      have := inv.taskInv t ht
      rw [TaskInv, hdone t ht] at this
      exact this
  · intro hpdf
    refine ⟨?_, rfl, get_lecture_save st _⟩
    unfold process_background_dispatch
    rw [hget, hpdf]
    simp

/-- One-page job whose only Analyzer call raises a non-rate-limit error. -/
def c2_lecture : Lecture :=
  { id := "job-2", filename := "deck.pdf", upload_date := 0,
    total_slides := 1, processed_slides := 0,
    cards := [{ id := "card-1", front := "", back := "", page_number := 1,
                status := .pending, error := none }],
    status := .pending, is_saved := false }

def c2_outcomes : List (Except String SlideDict) := [.error "boom"]

/-- Durable temp-tier state holding `source.pdf` before the metadata save. -/
def c2_store0 : StoreState := { temp := ⟨none, true⟩, saved := ⟨none, false⟩ }

/-- The store after ingest persisted `c2_lecture`. -/
def c2_store : StoreState :=
  _save_metadata c2_store0 (_get_storage_path c2_store0) c2_lecture

/-- Witness for C2 at a job whose single WorkItem fails. -/
theorem job_completes_witness :
    get_lecture c2_store = some c2_lecture ∧
    (∀ c ∈ c2_lecture.cards, c.status = .pending) ∧
    c2_lecture.processed_slides = 0 ∧
    c2_outcomes.length = c2_lecture.cards.length ∧
    (((c2_store.slot (_get_storage_path c2_store)).pdf = true →
      process_background_dispatch c2_store = .run c2_lecture ∧
      (∃ s, Reachable c2_lecture c2_outcomes s ∧ AllDone s) ∧
      (∀ s, Reachable c2_lecture c2_outcomes s → AllDone s →
        (∀ t ∈ s.tasks, t.card.status = .completed ∨ t.card.status = .failed) ∧
        (finalizeLecture c2_lecture s).status = .completed ∧
        get_lecture (_save_metadata c2_store (_get_storage_path c2_store)
          (finalizeLecture c2_lecture s)) =
          some (finalizeLecture c2_lecture s))) ∧
    ((c2_store.slot (_get_storage_path c2_store)).pdf = false →
      process_background_dispatch c2_store =
        .failedMissingPdf { c2_lecture with status := .failed } ∧
      { c2_lecture with status := .failed }.cards = c2_lecture.cards ∧
      get_lecture (_save_metadata c2_store (_get_storage_path c2_store)
        { c2_lecture with status := .failed }) =
        some { c2_lecture with status := .failed })) :=
  ⟨get_lecture_save c2_store0 c2_lecture, by decide, rfl, rfl,
    job_completes c2_store c2_lecture c2_outcomes
      (get_lecture_save c2_store0 c2_lecture) (by decide) rfl rfl⟩

/-- State of the process-wide limiter together with every card task sharing
it, across all jobs currently being processed. -/
structure SemState where
  avail : Nat
  tasks : List TaskState

/-- Interleaving semantics across all jobs sharing the single
`LectureSynth` semaphore: a newly started `process_background` may launch
further pending tasks at any time (`spawn`, one per card of the new job,
cards pending from ingest); `acquire` and `finish` are the per-card steps
of `process_single_card`, exactly as in `Step`. -/
inductive SemStep : SemState → SemState → Prop where
  | spawn (a : Nat) (ts : List TaskState) (c : Flashcard)
      (o : Except String SlideDict) (hc : c.status = .pending) :
      SemStep ⟨a, ts⟩ ⟨a, ts ++ [⟨c, o, .pending⟩]⟩
  | acquire (a : Nat) (pre post : List TaskState) (t : TaskState)
      (hph : t.phase = .pending) :
      SemStep ⟨a + 1, pre ++ t :: post⟩
        ⟨a, pre ++ { t with
            card := { t.card with status := .processing },
            phase := .working } :: post⟩
  | finish (a : Nat) (pre post : List TaskState) (t : TaskState) (pr : Nat)
      (hph : t.phase = .working) :
      SemStep ⟨a, pre ++ t :: post⟩
        ⟨a + 1, pre ++ { t with
            card := (process_single_card t.card t.outcome pr).1,
            phase := .done } :: post⟩

/-- States the process can pass through from start-up, the limiter
constructed with capacity `C` and no task yet launched. -/
def SemReachable (C : Nat) (s : SemState) : Prop :=
  Relation.ReflTransGen SemStep ⟨C, []⟩ s

/-- Cards currently in processing status, across all jobs. -/
def countProcessing (ts : List TaskState) : Nat :=
  ts.countP (fun t => t.card.status == ProcessingStatus.processing)

/-- The limiter invariant: free slots plus working tasks equal the
capacity, and each task's card status matches its phase. -/
structure SemInv (C : Nat) (s : SemState) : Prop where
  sem : s.avail + countWorking s.tasks = C
  taskInv : ∀ t ∈ s.tasks, TaskInv t

theorem countProcessing_middle (pre post : List TaskState) (t : TaskState) :
    countProcessing (pre ++ t :: post) =
      countProcessing pre + (countProcessing post +
        if t.card.status == ProcessingStatus.processing then 1 else 0) :=
  countP_middle _ pre post t

theorem sem_inv_step {C : Nat} {s s' : SemState} (hs : SemInv C s)
    (hstep : SemStep s s') : SemInv C s' := by
  cases hstep with
  | spawn a ts c o hc =>
    obtain ⟨hsem, htsk⟩ := hs
    dsimp only at hsem htsk
    constructor
    · dsimp only
      rw [countWorking, List.countP_append] at *
      simp [countWorking] at hsem ⊢
      omega
    · dsimp only
      intro t2 ht2
      rcases List.mem_append.1 ht2 with h | h
      · exact htsk t2 h
      · rcases List.mem_cons.1 h with rfl | h
        · simp [TaskInv, hc]
        · simp at h
  | acquire a pre post t hph =>
    obtain ⟨hsem, htsk⟩ := hs
    dsimp only at hsem htsk
    have hstat : t.card.status = .pending := by
      have := htsk t (by simp)
      rw [TaskInv, hph] at this
      exact this
    constructor
    · dsimp only
      rw [countWorking_middle] at hsem ⊢
      dsimp only
      rw [hph] at hsem
      simp at hsem ⊢
      omega
    · dsimp only
      intro t2 ht2
      rcases List.mem_append.1 ht2 with h | h
      · exact htsk t2 (by simp [h])
      · rcases List.mem_cons.1 h with rfl | h
        · simp [TaskInv]
        · exact htsk t2 (by simp [h])
  | finish a pre post t pr hph =>
    obtain ⟨hsem, htsk⟩ := hs
    dsimp only at hsem htsk
    constructor
    · dsimp only
      rw [countWorking_middle] at hsem ⊢
      dsimp only
      rw [hph] at hsem
      simp at hsem ⊢
      omega
    · dsimp only
      intro t2 ht2
      rcases List.mem_append.1 ht2 with h | h
      · exact htsk t2 (by simp [h])
      · rcases List.mem_cons.1 h with rfl | h
        · cases ho : t.outcome with
          | ok r => simp [TaskInv, process_single_card, ho]
          | error e => simp [TaskInv, process_single_card, ho]
        · exact htsk t2 (by simp [h])

theorem sem_inv_reachable {C : Nat} {s : SemState}
    (hr : SemReachable C s) : SemInv C s := by
  induction hr with
  | refl =>
    constructor
    · simp [countWorking]
    · intro t ht
      simp at ht
  | tail _ hstep ih => exact sem_inv_step ih hstep

theorem countProcessing_le_countWorking (ts : List TaskState)
    (h : ∀ t ∈ ts, TaskInv t) : countProcessing ts ≤ countWorking ts := by
  induction ts with
  | nil => simp [countProcessing, countWorking]
  | cons t rest ih =>
    have ht := h t (by simp)
    have hrest := ih (fun t2 ht2 => h t2 (by simp [ht2]))
    rw [countProcessing, countWorking, List.countP_cons, List.countP_cons]
    rw [countProcessing, countWorking] at hrest
    cases hph : t.phase with
    | pending =>
      rw [TaskInv, hph] at ht
      simp [ht, hph]
      omega
    | working =>
      rw [TaskInv, hph] at ht
      simp [ht, hph]
      omega
    | done =>
      rw [TaskInv, hph] at ht
      rcases ht with ht | ht <;> simp [ht, hph] <;> omega

/-- C9: the semaphore is constructed with capacity 3; in every reachable
interleaving of the card tasks of any collection of jobs sharing it, at
most `semaphoreCapacity` cards are simultaneously in processing status. -/
theorem limiter_bound (s : SemState)
    (hr : SemReachable semaphoreCapacity s) :
    countProcessing s.tasks ≤ semaphoreCapacity := by
  obtain ⟨hsem, htsk⟩ := sem_inv_reachable hr
  calc countProcessing s.tasks ≤ countWorking s.tasks :=
        countProcessing_le_countWorking s.tasks htsk
    _ ≤ semaphoreCapacity := by omega

/-- A pending one-page card shared by the four spawned jobs below. -/
def c9_card : Flashcard :=
  { id := "card-1", front := "", back := "", page_number := 1,
    status := .pending, error := none }

def c9_cardP : Flashcard :=
  { id := "card-1", front := "", back := "", page_number := 1,
    status := .processing, error := none }

def c9_o : Except String SlideDict := .error "boom"

def c9_t : TaskState := ⟨c9_card, c9_o, .pending⟩

def c9_w : TaskState := ⟨c9_cardP, c9_o, .working⟩

/-- Four one-card jobs spawned, three of their tasks holding slots and
marked processing, the fourth blocked pending: reachable from start-up. -/
theorem c9_run : SemReachable semaphoreCapacity ⟨0, [c9_w, c9_w, c9_w, c9_t]⟩ := by
  have t1 : SemStep ⟨semaphoreCapacity, []⟩ ⟨3, [c9_t]⟩ :=
    SemStep.spawn 3 [] c9_card c9_o rfl
  have t2 : SemStep ⟨3, [c9_t]⟩ ⟨3, [c9_t, c9_t]⟩ :=
    SemStep.spawn 3 [c9_t] c9_card c9_o rfl
  have t3 : SemStep ⟨3, [c9_t, c9_t]⟩ ⟨3, [c9_t, c9_t, c9_t]⟩ :=
    SemStep.spawn 3 [c9_t, c9_t] c9_card c9_o rfl
  have t4 : SemStep ⟨3, [c9_t, c9_t, c9_t]⟩ ⟨3, [c9_t, c9_t, c9_t, c9_t]⟩ :=
    SemStep.spawn 3 [c9_t, c9_t, c9_t] c9_card c9_o rfl
  have a1 : SemStep ⟨3, [c9_t, c9_t, c9_t, c9_t]⟩
      ⟨2, [c9_w, c9_t, c9_t, c9_t]⟩ :=
    SemStep.acquire 2 [] [c9_t, c9_t, c9_t] c9_t rfl
  have a2 : SemStep ⟨2, [c9_w, c9_t, c9_t, c9_t]⟩
      ⟨1, [c9_w, c9_w, c9_t, c9_t]⟩ :=
    SemStep.acquire 1 [c9_w] [c9_t, c9_t] c9_t rfl
  have a3 : SemStep ⟨1, [c9_w, c9_w, c9_t, c9_t]⟩
      ⟨0, [c9_w, c9_w, c9_w, c9_t]⟩ :=
    SemStep.acquire 0 [c9_w, c9_w] [c9_t] c9_t rfl
  exact Relation.ReflTransGen.head t1 (Relation.ReflTransGen.head t2
    (Relation.ReflTransGen.head t3 (Relation.ReflTransGen.head t4
    (Relation.ReflTransGen.head a1 (Relation.ReflTransGen.head a2
    (Relation.ReflTransGen.single a3))))))

/-- Witness for C9: at the reachable state with four spawned jobs, exactly
three cards are processing, within the capacity bound. -/
theorem limiter_bound_witness :
    SemReachable semaphoreCapacity ⟨0, [c9_w, c9_w, c9_w, c9_t]⟩ ∧
    countProcessing (⟨0, [c9_w, c9_w, c9_w, c9_t]⟩ : SemState).tasks = 3 ∧
    countProcessing (⟨0, [c9_w, c9_w, c9_w, c9_t]⟩ : SemState).tasks ≤
      semaphoreCapacity :=
  ⟨c9_run, by decide, limiter_bound ⟨0, [c9_w, c9_w, c9_w, c9_t]⟩ c9_run⟩

/-- C8: persisting a job with the store's put (`_save_metadata` at the
job's current storage path) and retrieving it by identifier with get
(`get_lecture`) yields a snapshot equal in every field to the one
persisted, nested card statuses, result text and error text included. -/
theorem put_get_roundtrip (st : StoreState) (l : Lecture) :
    get_lecture (_save_metadata st (_get_storage_path st) l) = some l :=
  get_lecture_save st l

end LectureSynth
